import Mathlib

/-!
Verification development for the LNXDrive GNOME Nautilus extension
(`src/nautilus-extension/src/lnxdrive-dbus-client.c` and
`lnxdrive-menu-provider.c`), shallowly embedded in Lean 4.

The D-Bus client keeps:
  * `files_proxy`   — the GDBusProxy pointer, modelled as `Option Unit`
                      (only its NULL-ness is ever inspected);
  * `status_cache`  — a GHashTable from path to status string, modelled
                      as an association list with `g_hash_table_replace`
                      semantics (`hreplace` below keeps keys unique);
  * `sync_root`     — `char *sync_root`, `NULL` at init, modelled as
                      `Option (List Char)` (config text is handled at the
                      C-string level, hence `List Char`);
  * `daemon_running`— gboolean;
  * `invalidate_cb` — presence of the registered invalidate callback.

Asynchronous D-Bus calls are embedded by making the transport explicit:
an action function returns what the C function does before the bus round
trip (either an immediately reported error or the issued remote call),
and each completion handler is a function from the delivered result to
the new state (plus the list of locally emitted effects, in order).
-/

/-- State of `struct _LnxdriveDbusClient` (lnxdrive-dbus-client.c). -/
structure ClientState where
  files_proxy : Option Unit
  status_cache : List (String × String)
  sync_root : Option (List Char)
  daemon_running : Bool
  invalidate_cb : Bool
  deriving DecidableEq

/-- `lnxdrive_dbus_client_init`: fresh empty cache, `sync_root = NULL`,
`daemon_running = FALSE`, no proxy, no invalidate callback. -/
def lnxdrive_dbus_client_init : ClientState :=
  { files_proxy := none
    status_cache := []
    sync_root := none
    daemon_running := false
    invalidate_cb := false }

/-- `g_hash_table_lookup` on the association-list model of the table
(`g_str_equal` keys). -/
def hlookup : List (String × String) → String → Option String
  | [], _ => none
  | kv :: rest, p => if kv.1 = p then some kv.2 else hlookup rest p

/-- `g_hash_table_replace`: overwrite the value when the key is present,
otherwise insert a new entry.  Keys stay unique. -/
def hreplace (c : List (String × String)) (k v : String) :
    List (String × String) :=
  if (hlookup c k).isSome then
    c.map (fun kv => if kv.1 = k then (kv.1, v) else kv)
  else
    c ++ [(k, v)]

/-- `invalidate_all_cache_entries`: iterate over the table and replace
every value with `"unknown"`, keeping every key (the C code uses
`g_hash_table_iter_replace`, which never removes the key). -/
def invalidate_all_cache_entries (c : List (String × String)) :
    List (String × String) :=
  c.map (fun kv => (kv.1, "unknown"))

/-- `lnxdrive_dbus_client_get_file_status`: `"unknown"` when the daemon
is not running, otherwise the cached value, defaulting to `"unknown"`
when the path has no entry. -/
def lnxdrive_dbus_client_get_file_status (s : ClientState) (path : String) :
    String :=
  if s.daemon_running = false then "unknown"
  else
    match hlookup s.status_cache path with
    | some cached => cached
    | none => "unknown"

/-- Locally observable effects of the client's signal handlers, in
emission order. -/
inductive Effect
  | cacheReplace (path status : String)
  | emitFileStatusChanged (path status : String)
  | invalidateDisplay
  deriving DecidableEq

/-- `on_file_status_changed` (FileStatusChanged D-Bus signal handler):
replace the cache entry for `path` with `status`, then emit the GObject
`file-status-changed` signal with the same pair, then (if registered)
call the Nautilus invalidate callback.  The effect list records this
order. -/
def on_file_status_changed (s : ClientState) (path status : String) :
    ClientState × List Effect :=
  ({ s with status_cache := hreplace s.status_cache path status },
   [Effect.cacheReplace path status,
    Effect.emitFileStatusChanged path status] ++
   (if s.invalidate_cb then [Effect.invalidateDisplay] else []))

/-- `on_name_owner_changed`: when the owner is gone the client enters
degraded mode (`daemon_running = FALSE`, whole cache invalidated in
place); when an owner (re-)appears, `daemon_running = TRUE` (the sync
root re-fetch is fire-and-forget and lands separately through
`on_get_config_ready`). -/
def on_name_owner_changed (s : ClientState) (owner : Option Unit) :
    ClientState :=
  match owner with
  | none =>
      { s with daemon_running := false
               status_cache := invalidate_all_cache_entries s.status_cache }
  | some _ => { s with daemon_running := true }

/-- `on_proxy_ready`: on success the proxy is stored and
`daemon_running` is set from the initial name-owner check; on failure
the state is left untouched. -/
def on_proxy_ready (s : ClientState) (proxy_ok owner_present : Bool) :
    ClientState :=
  if proxy_ok then
    { s with files_proxy := some (), daemon_running := owner_present }
  else s

/-- Error kind delivered synchronously to an action callback. -/
inductive GIOErrorKind
  | notConnected
  deriving DecidableEq

/-- What one of the action entry points does before any bus traffic:
either report an error straight to the callback (`g_task_report_new_error`)
or issue the asynchronous remote call with its timeout. -/
inductive ActionOutcome
  | immediateError (kind : GIOErrorKind) (message : String)
  | remoteCall (method : String) (path : String) (timeout_ms : Nat)
  deriving DecidableEq

/-- `lnxdrive_dbus_client_pin_file`: report `G_IO_ERROR_NOT_CONNECTED`
immediately when `files_proxy` is NULL, otherwise call `PinFile` with a
30 s timeout.  Note the guard is only on the proxy pointer, not on
`daemon_running`. -/
def lnxdrive_dbus_client_pin_file (s : ClientState) (path : String) :
    ActionOutcome :=
  if s.files_proxy = none then
    ActionOutcome.immediateError GIOErrorKind.notConnected
      "LNXDrive daemon is not available"
  else
    ActionOutcome.remoteCall "PinFile" path 30000

/-- `lnxdrive_dbus_client_unpin_file`: same shape as pin, verb
`UnpinFile`. -/
def lnxdrive_dbus_client_unpin_file (s : ClientState) (path : String) :
    ActionOutcome :=
  if s.files_proxy = none then
    ActionOutcome.immediateError GIOErrorKind.notConnected
      "LNXDrive daemon is not available"
  else
    ActionOutcome.remoteCall "UnpinFile" path 30000

/-- `lnxdrive_dbus_client_sync_path`: same shape as pin, verb
`SyncPath`. -/
def lnxdrive_dbus_client_sync_path (s : ClientState) (path : String) :
    ActionOutcome :=
  if s.files_proxy = none then
    ActionOutcome.immediateError GIOErrorKind.notConnected
      "LNXDrive daemon is not available"
  else
    ActionOutcome.remoteCall "SyncPath" path 30000

/-- Apply a batch reply: `g_hash_table_replace` each `(key, value)` pair
into the table, in iteration order. -/
def apply_batch (c : List (String × String))
    (entries : List (String × String)) : List (String × String) :=
  entries.foldl (fun acc kv => hreplace acc kv.1 kv.2) c

/-- Everything `lnxdrive_dbus_client_get_batch_file_status` produces:
the returned table (never NULL — built unconditionally at entry), the
resulting client state, and whether a remote (blocking) call was made. -/
structure BatchOutcome where
  result : List (String × String)
  state : ClientState
  called_remote : Bool
  deriving DecidableEq

/-- `lnxdrive_dbus_client_get_batch_file_status`: with no running daemon,
no proxy, or an empty path array, return the fresh empty table at once;
otherwise make the synchronous `GetBatchFileStatus` call (reply `none`
models transport failure or timeout) and on success fill both the
returned table and the local cache entry by entry. -/
def lnxdrive_dbus_client_get_batch_file_status (s : ClientState)
    (paths : List String) (reply : Option (List (String × String))) :
    BatchOutcome :=
  if s.daemon_running = false ∨ s.files_proxy = none ∨ paths = [] then
    { result := [], state := s, called_remote := false }
  else
    match reply with
    | none => { result := [], state := s, called_remote := true }
    | some entries =>
        { result := apply_batch [] entries
          state := { s with status_cache := apply_batch s.status_cache entries }
          called_remote := true }

/-- `lnxdrive_dbus_client_is_daemon_running`. -/
def lnxdrive_dbus_client_is_daemon_running (s : ClientState) : Bool :=
  s.daemon_running

/-- `lnxdrive_dbus_client_get_sync_root`: returns the raw `sync_root`
pointer, which is NULL (`none`) until some fetch handler stores a
value. -/
def lnxdrive_dbus_client_get_sync_root (s : ClientState) :
    Option (List Char) :=
  s.sync_root

/-- The literal `"sync_root:"` key scanned for by `on_get_config_ready`. -/
def sync_root_key : List Char := "sync_root:".toList

/-- Whitespace skipped after the key (`*pos == ' ' || *pos == '\t'`). -/
def is_ws (c : Char) : Bool := c == ' ' || c == '\t'

/-- End-of-value characters (`*end == '\n' || *end == '\r'`; the NUL
terminator of the C string is the end of the Lean list). -/
def is_eol (c : Char) : Bool := c == '\n' || c == '\r'

/-- `strstr`: return the suffix just past the first occurrence of `key`,
or `none` when `key` does not occur. -/
def find_after (key : List Char) : List Char → Option (List Char)
  | [] => none
  | c :: cs =>
      if key.isPrefixOf (c :: cs) then some (List.drop key.length (c :: cs))
      else find_after key cs

/-- Skip leading spaces and tabs (the `while (*pos == ' ' || *pos == '\t')`
loop).  Nothing is trimmed from the right. -/
def skip_ws (l : List Char) : List Char := l.dropWhile is_ws

/-- Read the value up to the end of line (the `while (*end != '\0' &&
*end != '\n' && *end != '\r')` loop plus `g_strndup`). -/
def take_value (l : List Char) : List Char := l.takeWhile (fun c => !is_eol c)

/-- Leading run of path separators dropped from a `g_build_filename`
element that is not the first. -/
def strip_leading_sep (l : List Char) : List Char :=
  l.dropWhile (fun c => c == '/')

/-- Trailing run of path separators of the last `g_build_filename`
element, which `g_build_path_va` re-appends to the result. -/
def trailing_sep_run (l : List Char) : List Char :=
  (l.reverse.takeWhile (fun c => c == '/')).reverse

/-- A `g_build_filename` element with its leading and trailing
separator runs removed (interior separators are untouched). -/
def strip_seps (l : List Char) : List Char :=
  ((strip_leading_sep l).reverse.dropWhile (fun c => c == '/')).reverse

/-- `g_build_filename (home, rest, NULL)` for a first element without a
trailing separator (glib's `g_build_path_va`): an empty second element
is skipped; the second element's leading separator run is collapsed
into the single inserted separator; its trailing separator run is kept;
its interior separators are untouched. -/
def g_build_filename (home rest : List Char) : List Char :=
  if rest = [] then home
  else if strip_seps rest = [] then home ++ trailing_sep_run rest
  else home ++ '/' :: (strip_seps rest ++ trailing_sep_run rest)

/-- The `raw[0] == '~' && (raw[1] == '/' || raw[1] == '\0')` expansion:
`g_build_filename (home, raw + 2, NULL)`.  (For `raw = "~"` the C reads
`raw + 2`, one past the NUL terminator; the result modelled here is the
home directory, which is what the expansion yields for `raw = "~/"` as
well.) -/
def expand_tilde (home raw : List Char) : List Char :=
  match raw with
  | r0 :: r1 :: rest =>
      if r0 = '~' ∧ r1 = '/' then g_build_filename home rest
      else raw
  | [r0] => if r0 = '~' then home else raw
  | [] => raw

/-- The extraction step of `on_get_config_ready`: first occurrence of
`sync_root:`, skip leading spaces/tabs, take to end of line, expand a
leading tilde; `none` when the key is absent from the blob. -/
def extract_sync_root (home blob : List Char) : Option (List Char) :=
  (find_after sync_root_key blob).map
    (fun after => expand_tilde home (take_value (skip_ws after)))

/-- Default sync root: `g_build_filename (g_get_home_dir (), "OneDrive",
NULL)`. -/
def default_sync_root (home : List Char) : List Char :=
  home ++ "/OneDrive".toList

/-- Trailing-whitespace trim, used only by `extract_sync_root_spec`. -/
def trim_trailing_ws (l : List Char) : List Char :=
  (l.reverse.dropWhile is_ws).reverse

/-- Modelled from the spec and claim wording "trim surrounding
whitespace": identical to `extract_sync_root` except that whitespace is
also trimmed from the right end of the value.  Kept only to compare the
claimed extraction with the one the code performs (the code trims on
the left only). -/
def extract_sync_root_spec (home blob : List Char) : Option (List Char) :=
  (find_after sync_root_key blob).map
    (fun after =>
      expand_tilde home (trim_trailing_ws (take_value (skip_ws after))))

/-- `on_get_config_ready`: with a failed call (`ret == NULL`, covering
transport failure and timeout) or a blob without the key, store the
default sync root; otherwise store the extracted value.  The handler
returns nothing but the new state — no error reaches any caller. -/
def on_get_config_ready (home : List Char) (s : ClientState)
    (reply : Option (List Char)) : ClientState :=
  match reply with
  | none => { s with sync_root := some (default_sync_root home) }
  | some blob =>
      match extract_sync_root home blob with
      | some v => { s with sync_root := some v }
      | none => { s with sync_root := some (default_sync_root home) }

/-- `on_settings_proxy_ready`: a failed proxy construction stores the
default sync root; a successful one only issues the `GetConfig` call
(whose completion is `on_get_config_ready`), leaving the state as is. -/
def on_settings_proxy_ready (home : List Char) (s : ClientState)
    (proxy_ok : Bool) : ClientState :=
  if proxy_ok then s
  else { s with sync_root := some (default_sync_root home) }

/-- `LNXDRIVE_DBUS_ERROR_INSUFFICIENT_DISK_SPACE` (lnxdrive-dbus-client.h). -/
def LNXDRIVE_DBUS_ERROR_INSUFFICIENT_DISK_SPACE : String :=
  "org.enigmora.LNXDrive.Error.InsufficientDiskSpace"

/-- `LNXDRIVE_DBUS_ERROR_FILE_IN_USE` (lnxdrive-dbus-client.h). -/
def LNXDRIVE_DBUS_ERROR_FILE_IN_USE : String :=
  "org.enigmora.LNXDrive.Error.FileInUse"

/-- `LNXDRIVE_DBUS_ERROR_INVALID_PATH` (lnxdrive-dbus-client.h). -/
def LNXDRIVE_DBUS_ERROR_INVALID_PATH : String :=
  "org.enigmora.LNXDrive.Error.InvalidPath"

/-- The spec's `RemoteError` taxonomy, as realised by the branch taken
in `handle_action_error`. -/
inductive RemoteErrorClass
  | insufficientDiskSpace
  | fileInUse
  | invalidPath
  | unclassified (message : String)
  deriving DecidableEq

/-- Which branch of `handle_action_error` (lnxdrive-menu-provider.c) a
daemon-reported failure takes: `g_dbus_error_get_remote_error` yields
the remote error name (`none` when the error is not a remote error), and
the `g_strcmp0` chain compares it against the three known names. -/
def classify_remote_error (remote_error : Option String) (message : String) :
    RemoteErrorClass :=
  if remote_error = some LNXDRIVE_DBUS_ERROR_INSUFFICIENT_DISK_SPACE then
    RemoteErrorClass.insufficientDiskSpace
  else if remote_error = some LNXDRIVE_DBUS_ERROR_FILE_IN_USE then
    RemoteErrorClass.fileInUse
  else if remote_error = some LNXDRIVE_DBUS_ERROR_INVALID_PATH then
    RemoteErrorClass.invalidPath
  else
    RemoteErrorClass.unclassified message

/-- The desktop notification built by `show_error_notification`. -/
structure ErrorNote where
  title : String
  body : String
  deriving DecidableEq

/-- `handle_action_error`: the notification produced for each branch of
the classification chain; the generic branch formats
`"The \"%s\" operation failed: %s"` with the action name and the
original error message. -/
def handle_action_error (remote_error : Option String)
    (message action_name : String) : ErrorNote :=
  if remote_error = some LNXDRIVE_DBUS_ERROR_INSUFFICIENT_DISK_SPACE then
    { title := "Not Enough Disk Space"
      body := "There is not enough disk space to complete this operation. Free up some space and try again." }
  else if remote_error = some LNXDRIVE_DBUS_ERROR_FILE_IN_USE then
    { title := "File In Use"
      body := "The file is currently in use by another process. Close the file and try again." }
  else if remote_error = some LNXDRIVE_DBUS_ERROR_INVALID_PATH then
    { title := "File Not in Sync Folder"
      body := "This file is not inside the LNXDrive sync folder." }
  else
    { title := "LNXDrive: Operation Failed"
      body := "The \"" ++ action_name ++ "\" operation failed: " ++ message }

/-- The completion events that mutate the client's state over its
lifetime, used to enumerate reachable states. -/
inductive ClientEvent
  | proxyReady (proxy_ok owner_present : Bool)
  | nameOwnerChanged (owner : Option Unit)
  | fileStatusChanged (path status : String)
  | settingsProxyReady (proxy_ok : Bool)
  | getConfigReady (reply : Option (List Char))
  | batchReply (paths : List String) (reply : Option (List (String × String)))

/-- One completion event delivered to the client. -/
def step (home : List Char) (s : ClientState) (e : ClientEvent) :
    ClientState :=
  match e with
  | ClientEvent.proxyReady ok owner => on_proxy_ready s ok owner
  | ClientEvent.nameOwnerChanged owner => on_name_owner_changed s owner
  | ClientEvent.fileStatusChanged p st => (on_file_status_changed s p st).1
  | ClientEvent.settingsProxyReady ok => on_settings_proxy_ready home s ok
  | ClientEvent.getConfigReady reply => on_get_config_ready home s reply
  | ClientEvent.batchReply paths reply =>
      (lnxdrive_dbus_client_get_batch_file_status s paths reply).state

/-- The client state after a sequence of completion events, starting
from the freshly initialised instance. -/
def run_client (home : List Char) (evs : List ClientEvent) : ClientState :=
  evs.foldl (step home) lnxdrive_dbus_client_init

/-- The events that complete a sync-root fetch attempt and store a
value into `sync_root`: a failed Settings-proxy construction
(`on_settings_proxy_ready` error path) or any completion of the
`GetConfig` call (`on_get_config_ready`).  A successful proxy
construction only issues the call and stores nothing yet. -/
def is_fetch_completion : ClientEvent → Bool
  | ClientEvent.settingsProxyReady ok => !ok
  | ClientEvent.getConfigReady _ => true
  | _ => false

/-! ### Helper lemmas about the association-list cache -/

lemma lookup_map_overwrite (k v : String) :
    ∀ c : List (String × String), (hlookup c k).isSome →
      hlookup (c.map (fun kv => if kv.1 = k then (kv.1, v) else kv)) k
        = some v := by
  intro c
  induction c with
  | nil => intro h; simp [hlookup] at h
  | cons a rest ih =>
      intro h
      by_cases hk : a.1 = k
      · simp [hlookup, hk]
      · simp only [hlookup, hk, if_false] at h
        simpa [hlookup, hk] using ih h

lemma lookup_append_single (k v : String) :
    ∀ c : List (String × String), hlookup c k = none →
      hlookup (c ++ [(k, v)]) k = some v := by
  intro c
  induction c with
  | nil => intro _; simp [hlookup]
  | cons a rest ih =>
      intro h
      by_cases hk : a.1 = k
      · simp [hlookup, hk] at h
      · simp only [hlookup, hk, if_false] at h
        simpa [hlookup, hk] using ih h

lemma lookup_map_other (k v k' : String) (h : k' ≠ k) :
    ∀ c : List (String × String),
      hlookup (c.map (fun kv => if kv.1 = k then (kv.1, v) else kv)) k'
        = hlookup c k' := by
  intro c
  have hkk : ¬ k = k' := fun hh => h hh.symm
  induction c with
  | nil => rfl
  | cons a rest ih =>
      by_cases hk : a.1 = k
      · have hk' : ¬ a.1 = k' := by rw [hk]; exact hkk
        simp [hlookup, hk, hk', hkk, ih]
      · by_cases hk' : a.1 = k'
        · simp [hlookup, hk, hk', h]
        · simp [hlookup, hk, hk', ih]

lemma lookup_append_other (k v k' : String) (h : k' ≠ k) :
    ∀ c : List (String × String),
      hlookup (c ++ [(k, v)]) k' = hlookup c k' := by
  intro c
  have hkk : ¬ k = k' := fun hh => h hh.symm
  induction c with
  | nil => simp [hlookup, hkk]
  | cons a rest ih =>
      by_cases hk' : a.1 = k'
      · simp [hlookup, hk']
      · simp [hlookup, hk', ih]

/-- `g_hash_table_replace` followed by a lookup of the same key yields
the new value. -/
lemma hreplace_lookup_self (c : List (String × String)) (k v : String) :
    hlookup (hreplace c k v) k = some v := by
  unfold hreplace
  by_cases h : (hlookup c k).isSome
  · simpa [h] using lookup_map_overwrite k v c h
  · have hnone : hlookup c k = none := by
      cases hc : hlookup c k with
      | none => rfl
      | some w => simp [hc] at h
    simpa [h] using lookup_append_single k v c hnone

/-- `g_hash_table_replace` leaves every other key's value unchanged. -/
lemma hreplace_lookup_other (c : List (String × String)) (k v k' : String)
    (h : k' ≠ k) :
    hlookup (hreplace c k v) k' = hlookup c k' := by
  unfold hreplace
  by_cases hs : (hlookup c k).isSome
  · simpa [hs] using lookup_map_other k v k' h c
  · simpa [hs] using lookup_append_other k v k' h c

/-- Invalidation rewrites the value of every present key to
`"unknown"` and leaves absent keys absent. -/
lemma invalidate_lookup (p : String) :
    ∀ c : List (String × String),
      hlookup (invalidate_all_cache_entries c) p
        = (hlookup c p).map (fun _ => "unknown") := by
  intro c
  induction c with
  | nil => simp [invalidate_all_cache_entries, hlookup]
  | cons a rest ih =>
      by_cases hp : a.1 = p
      · simp [invalidate_all_cache_entries, hlookup, hp]
      · simpa [invalidate_all_cache_entries, hlookup, hp] using ih

/-- Invalidation keeps the key set (even the key list) unchanged. -/
lemma invalidate_keys (c : List (String × String)) :
    (invalidate_all_cache_entries c).map Prod.fst = c.map Prod.fst := by
  induction c with
  | nil => rfl
  | cons a rest ih =>
      simp only [invalidate_all_cache_entries, List.map_cons] at ih ⊢
      rw [ih]

/-- A batch application does not touch keys outside the batch. -/
lemma apply_batch_lookup_not_mem (p : String) :
    ∀ (entries c : List (String × String)), p ∉ entries.map Prod.fst →
      hlookup (apply_batch c entries) p = hlookup c p := by
  intro entries
  induction entries with
  | nil => intro c _; rfl
  | cons e es ih =>
      intro c h
      simp only [List.map_cons, List.mem_cons] at h
      push_neg at h
      calc hlookup (apply_batch (hreplace c e.1 e.2) es) p
            = hlookup (hreplace c e.1 e.2) p := ih _ h.2
        _ = hlookup c p := hreplace_lookup_other _ _ _ _ h.1

/-- With distinct batch keys, every batch entry is visible in the table
after the batch application. -/
lemma apply_batch_lookup_mem (p st : String) :
    ∀ (entries c : List (String × String)),
      (entries.map Prod.fst).Nodup → (p, st) ∈ entries →
      hlookup (apply_batch c entries) p = some st := by
  intro entries
  induction entries with
  | nil => intro c _ hmem; cases hmem
  | cons e es ih =>
      intro c hnodup hmem
      simp only [List.map_cons, List.nodup_cons] at hnodup
      rcases List.mem_cons.1 hmem with he | he
      · subst he
        have hnm : p ∉ es.map Prod.fst := hnodup.1
        calc hlookup (apply_batch c ((p, st) :: es)) p
              = hlookup (apply_batch (hreplace c p st) es) p := rfl
          _ = hlookup (hreplace c p st) p :=
              apply_batch_lookup_not_mem p es _ hnm
          _ = some st := hreplace_lookup_self _ _ _
      · exact ih _ hnodup.2 he

/-! ### Helper lemmas about the sync-root scanner -/

lemma isPrefixOf_append_self (l t : List Char) :
    l.isPrefixOf (l ++ t) = true := by
  induction l with
  | nil => simp
  | cons a as ih => simp [List.isPrefixOf_cons₂, ih]

/-- `strstr` on a haystack that begins with the key: the first match is
at position zero. -/
lemma find_after_append (key t : List Char) (hk : key ≠ []) :
    find_after key (key ++ t) = some t := by
  cases key with
  | nil => exact (hk rfl).elim
  | cons k ks =>
      show find_after (k :: ks) (k :: (ks ++ t)) = some t
      have hpre : (k :: ks).isPrefixOf (k :: (ks ++ t)) = true := by
        simp
      have hdrop : List.drop (k :: ks).length (k :: (ks ++ t)) = t := by
        simp
      simp [find_after, hpre, hdrop]

lemma dropWhile_head_false (p : Char → Bool) (l : List Char)
    (h : ∀ c, l.head? = some c → p c = false) :
    l.dropWhile p = l := by
  cases l with
  | nil => rfl
  | cons a as => simp [List.dropWhile, h a rfl]

lemma takeWhile_append_stop (p : Char → Bool) (v rest : List Char)
    (c : Char) (hv : ∀ x ∈ v, p x = true) (hc : p c = false) :
    (v ++ c :: rest).takeWhile p = v := by
  induction v with
  | nil => simp [List.takeWhile, hc]
  | cons a as ih =>
      have ha : p a = true := hv a (List.mem_cons_self a as)
      have has : ∀ x ∈ as, p x = true := fun x hx => hv x (List.mem_cons_of_mem a hx)
      simp [List.takeWhile, ha, ih has]

/-- The extraction on a blob that begins with `"sync_root: "` followed
by an end-of-line-free value whose first character is not a space or
tab: the value is taken verbatim (trailing whitespace included) and
tilde-expanded. -/
lemma extract_sync_root_structured (home v rest : List Char)
    (hv_eol : ∀ c ∈ v, is_eol c = false)
    (hv_head : ∀ c, v.head? = some c → is_ws c = false) :
    extract_sync_root home ("sync_root: ".toList ++ (v ++ '\n' :: rest))
      = some (expand_tilde home v) := by
  have hkey : "sync_root: ".toList = sync_root_key ++ [' '] := by decide
  have hch : sync_root_key ≠ [] := by decide
  have hfind : find_after sync_root_key
      ("sync_root: ".toList ++ (v ++ '\n' :: rest))
        = some (' ' :: (v ++ '\n' :: rest)) := by
    rw [hkey, List.append_assoc]
    exact find_after_append sync_root_key _ hch
  have hskip : skip_ws (' ' :: (v ++ '\n' :: rest)) = v ++ '\n' :: rest := by
    have hsp : is_ws ' ' = true := by decide
    have hrest : (v ++ '\n' :: rest).dropWhile is_ws = v ++ '\n' :: rest := by
      apply dropWhile_head_false
      intro c hc
      cases v with
      | nil =>
          simp only [List.nil_append, List.head?_cons, Option.some.injEq] at hc
          rw [← hc]; decide
      | cons a as =>
          simp only [List.cons_append, List.head?_cons, Option.some.injEq] at hc
          rw [← hc]
          exact hv_head a rfl
    simp only [skip_ws, List.dropWhile_cons, hsp, if_true]
    exact hrest
  have htake : take_value (v ++ '\n' :: rest) = v := by
    apply takeWhile_append_stop
    · intro x hx
      simp [hv_eol x hx]
    · decide
  unfold extract_sync_root
  rw [hfind, Option.map_some', hskip, htake]

lemma on_proxy_ready_sync_root (s : ClientState) (ok owner : Bool) :
    (on_proxy_ready s ok owner).sync_root = s.sync_root := by
  unfold on_proxy_ready
  split <;> rfl

lemma on_name_owner_changed_sync_root (s : ClientState)
    (owner : Option Unit) :
    (on_name_owner_changed s owner).sync_root = s.sync_root := by
  cases owner <;> rfl

lemma batch_sync_root (s : ClientState) (paths : List String)
    (reply : Option (List (String × String))) :
    (lnxdrive_dbus_client_get_batch_file_status s paths reply).state.sync_root
      = s.sync_root := by
  unfold lnxdrive_dbus_client_get_batch_file_status
  split
  · rfl
  · cases reply <;> rfl

/-! ### Claim theorems -/

/-- Claim C1: for every path, `lnxdrive_dbus_client_get_file_status`
returns `"unknown"` whenever the path has no cache entry or whenever
the daemon is not running; the disconnected check takes precedence over
any cached value (the first conjunct holds whatever the cache holds),
and the function is total into plain strings — no error, no null. -/
theorem c1_get_file_status_unknown (s : ClientState) (path : String) :
    (s.daemon_running = false →
      lnxdrive_dbus_client_get_file_status s path = "unknown")
    ∧ (hlookup s.status_cache path = none →
      lnxdrive_dbus_client_get_file_status s path = "unknown") := by
  constructor
  · intro h
    simp [lnxdrive_dbus_client_get_file_status, h]
  · intro h
    by_cases hd : s.daemon_running = false
    · simp [lnxdrive_dbus_client_get_file_status, hd]
    · simp [lnxdrive_dbus_client_get_file_status, hd, h]

/-- Witness for C1 at the freshly initialised client and path `"/a"`. -/
theorem c1_witness :
    lnxdrive_dbus_client_init.daemon_running = false
    ∧ lnxdrive_dbus_client_get_file_status lnxdrive_dbus_client_init "/a"
        = "unknown" :=
  ⟨rfl, (c1_get_file_status_unknown lnxdrive_dbus_client_init "/a").1 rfl⟩

/-- Claim C2 counterexample: after the proxy becomes ready while the
daemon is absent (owner check fails), the client is not connected
(`daemon_running = FALSE`), yet `pin` issues a 30 s remote call instead
of failing immediately with a connection error — the guard in the code
is on the proxy pointer, not on the connection state. -/
theorem c2_counterexample :
    (on_proxy_ready lnxdrive_dbus_client_init true false).daemon_running
        = false
    ∧ lnxdrive_dbus_client_pin_file
        (on_proxy_ready lnxdrive_dbus_client_init true false) "/x"
        = ActionOutcome.remoteCall "PinFile" "/x" 30000 := by
  constructor <;> rfl

/-- Claim C2 (amended): pin, unpin and syncPath fail immediately with
`G_IO_ERROR_NOT_CONNECTED` delivered to the callback, with no remote
call issued, exactly when the files proxy has not been created; whenever
the proxy exists — even with `daemon_running = FALSE` — each issues its
remote call with a 30 s timeout. -/
theorem c2_actions_gate_on_proxy (s : ClientState) (path : String) :
    (s.files_proxy = none →
      lnxdrive_dbus_client_pin_file s path
          = ActionOutcome.immediateError GIOErrorKind.notConnected
              "LNXDrive daemon is not available"
      ∧ lnxdrive_dbus_client_unpin_file s path
          = ActionOutcome.immediateError GIOErrorKind.notConnected
              "LNXDrive daemon is not available"
      ∧ lnxdrive_dbus_client_sync_path s path
          = ActionOutcome.immediateError GIOErrorKind.notConnected
              "LNXDrive daemon is not available")
    ∧ (s.files_proxy ≠ none →
      lnxdrive_dbus_client_pin_file s path
          = ActionOutcome.remoteCall "PinFile" path 30000
      ∧ lnxdrive_dbus_client_unpin_file s path
          = ActionOutcome.remoteCall "UnpinFile" path 30000
      ∧ lnxdrive_dbus_client_sync_path s path
          = ActionOutcome.remoteCall "SyncPath" path 30000) := by
  constructor <;> intro h <;>
    simp [lnxdrive_dbus_client_pin_file, lnxdrive_dbus_client_unpin_file,
      lnxdrive_dbus_client_sync_path, h]

/-- Witness for C2 (amended) at the freshly initialised client (no
proxy yet) and path `"/x"`. -/
theorem c2_witness :
    lnxdrive_dbus_client_init.files_proxy = none
    ∧ lnxdrive_dbus_client_pin_file lnxdrive_dbus_client_init "/x"
        = ActionOutcome.immediateError GIOErrorKind.notConnected
            "LNXDrive daemon is not available" :=
  ⟨rfl, ((c2_actions_gate_on_proxy lnxdrive_dbus_client_init "/x").1 rfl).1⟩

/-- Claim C3: when the daemon disappears from the bus, the client
transitions to not-connected, rewrites every cache value to
`"unknown"` in place without removing any key (the key list is
unchanged, and a previously-present key is still present with value
`"unknown"`), and every subsequent `getFileStatus` returns
`"unknown"`. -/
theorem c3_daemon_disappear_invalidates (s : ClientState) (p : String) :
    (on_name_owner_changed s none).daemon_running = false
    ∧ (on_name_owner_changed s none).status_cache.map Prod.fst
        = s.status_cache.map Prod.fst
    ∧ ((hlookup s.status_cache p).isSome →
        hlookup (on_name_owner_changed s none).status_cache p
          = some "unknown")
    ∧ lnxdrive_dbus_client_get_file_status (on_name_owner_changed s none) p
        = "unknown" := by
  refine ⟨rfl, invalidate_keys s.status_cache, ?_, ?_⟩
  · intro h
    show hlookup (invalidate_all_cache_entries s.status_cache) p
        = some "unknown"
    rw [invalidate_lookup]
    cases hc : hlookup s.status_cache p with
    | none => rw [hc] at h; simp at h
    | some w => simp
  · simp [lnxdrive_dbus_client_get_file_status, on_name_owner_changed]

/-- Witness for C3 at a client whose cache holds `"/a" ↦ "synced"`. -/
theorem c3_witness :
    (hlookup [("/a", "synced")] "/a").isSome
    ∧ hlookup (on_name_owner_changed
        { lnxdrive_dbus_client_init with
            status_cache := [("/a", "synced")], daemon_running := true }
        none).status_cache "/a" = some "unknown" :=
  ⟨by decide,
    ((c3_daemon_disappear_invalidates
      { lnxdrive_dbus_client_init with
          status_cache := [("/a", "synced")], daemon_running := true }
      "/a").2.2.1 (by decide))⟩

/-- Claim C4: the FileStatusChanged handler first overwrites the cache
entry for the path with the received status and then emits the local
status-changed event with the same pair (the first two effects, in
order); thereafter `getFileStatus` returns the pushed status while
connected, and a push arriving after a batch result for the same path
overwrites it. -/
theorem c4_push_updates_cache_then_emits (s : ClientState) (p st : String)
    (paths : List String) (entries : List (String × String)) :
    (on_file_status_changed s p st).2.take 2
        = [Effect.cacheReplace p st, Effect.emitFileStatusChanged p st]
    ∧ hlookup (on_file_status_changed s p st).1.status_cache p = some st
    ∧ (s.daemon_running = true →
        lnxdrive_dbus_client_get_file_status
          (on_file_status_changed s p st).1 p = st)
    ∧ hlookup (on_file_status_changed
        (lnxdrive_dbus_client_get_batch_file_status s paths
          (some entries)).state p st).1.status_cache p = some st := by
  refine ⟨?_, ?_, ?_, ?_⟩
  · cases h : s.invalidate_cb <;> simp [on_file_status_changed, h]
  · exact hreplace_lookup_self s.status_cache p st
  · intro h
    have hd : (on_file_status_changed s p st).1.daemon_running = true := h
    simp [lnxdrive_dbus_client_get_file_status, hd,
      show (on_file_status_changed s p st).1.status_cache
          = hreplace s.status_cache p st from rfl,
      hreplace_lookup_self]
  · exact hreplace_lookup_self _ p st

/-- Witness for C4: a connected client receives a batch result mapping
`"/a/b.txt"` to `"synced"`, then the push
`FileStatusChanged("/a/b.txt", "cloud-only")` arrives and wins. -/
theorem c4_witness :
    (on_proxy_ready lnxdrive_dbus_client_init true true).daemon_running
        = true
    ∧ lnxdrive_dbus_client_get_file_status
        (on_file_status_changed
          (on_proxy_ready lnxdrive_dbus_client_init true true)
          "/a/b.txt" "cloud-only").1 "/a/b.txt" = "cloud-only"
    ∧ hlookup (on_file_status_changed
        (lnxdrive_dbus_client_get_batch_file_status
          (on_proxy_ready lnxdrive_dbus_client_init true true)
          ["/a/b.txt"] (some [("/a/b.txt", "synced")])).state
        "/a/b.txt" "cloud-only").1.status_cache "/a/b.txt"
        = some "cloud-only" :=
  ⟨rfl,
    (c4_push_updates_cache_then_emits
      (on_proxy_ready lnxdrive_dbus_client_init true true)
      "/a/b.txt" "cloud-only" ["/a/b.txt"]
      [("/a/b.txt", "synced")]).2.2.1 rfl,
    (c4_push_updates_cache_then_emits
      (on_proxy_ready lnxdrive_dbus_client_init true true)
      "/a/b.txt" "cloud-only" ["/a/b.txt"]
      [("/a/b.txt", "synced")]).2.2.2⟩

/-- Claim C5 counterexample: the code does not trim surrounding
whitespace from the extracted value — only leading spaces and tabs are
skipped.  On the blob `"sync_root: /data/x \n"` the code keeps the
trailing space, while the claimed trimming would drop it. -/
theorem c5_counterexample :
    extract_sync_root "/home/user".toList "sync_root: /data/x \n".toList
        = some "/data/x ".toList
    ∧ extract_sync_root_spec "/home/user".toList
        "sync_root: /data/x \n".toList = some "/data/x".toList
    ∧ extract_sync_root "/home/user".toList "sync_root: /data/x \n".toList
        ≠ extract_sync_root_spec "/home/user".toList
            "sync_root: /data/x \n".toList := by
  refine ⟨by decide, by decide, by decide⟩

/-- Claim C5 (amended): the sync-root extraction takes the first
occurrence of `sync_root:` in the blob, skips leading spaces and tabs,
reads the value up to end of line keeping any trailing whitespace, and
tilde-expands it (`expand_tilde`: a value starting with `~` followed by
`/` or end of value has the remainder past `~/` joined to the home
directory as `g_build_filename` does, collapsing its leading separator
run; anything else is verbatim); on the blob
`"version: 2\nsync_root: ~/Work/Drive\nother: 1\n"` the result is
`<home>/Work/Drive`, and on `"sync_root: ~//x\n"` it is `<home>/x`. -/
theorem c5_sync_root_extraction (home v rest : List Char)
    (hv_eol : ∀ c ∈ v, is_eol c = false)
    (hv_head : ∀ c, v.head? = some c → is_ws c = false) :
    extract_sync_root home ("sync_root: ".toList ++ (v ++ '\n' :: rest))
        = some (expand_tilde home v)
    ∧ extract_sync_root home
        "version: 2\nsync_root: ~/Work/Drive\nother: 1\n".toList
        = some (home ++ "/Work/Drive".toList)
    ∧ extract_sync_root home "sync_root: ~//x\n".toList
        = some (home ++ "/x".toList) := by
  refine ⟨extract_sync_root_structured home v rest hv_eol hv_head, ?_, ?_⟩
  · have hfind : find_after sync_root_key
        "version: 2\nsync_root: ~/Work/Drive\nother: 1\n".toList
          = some " ~/Work/Drive\nother: 1\n".toList := by decide
    have hval : take_value (skip_ws " ~/Work/Drive\nother: 1\n".toList)
        = '~' :: '/' :: "Work/Drive".toList := by decide
    unfold extract_sync_root
    rw [hfind, Option.map_some', hval]
    rfl
  · have hfind : find_after sync_root_key "sync_root: ~//x\n".toList
        = some " ~//x\n".toList := by decide
    have hval : take_value (skip_ws " ~//x\n".toList)
        = '~' :: '/' :: "/x".toList := by decide
    unfold extract_sync_root
    rw [hfind, Option.map_some', hval]
    rfl

/-- Witness for C5 (amended) at home `"/home/user"`, value
`"/a b "` (trailing space kept) and trailing blob text `"k: 1\n"`. -/
theorem c5_witness :
    (∀ c ∈ "/a b ".toList, is_eol c = false)
    ∧ (∀ c, "/a b ".toList.head? = some c → is_ws c = false)
    ∧ extract_sync_root "/home/user".toList
        ("sync_root: ".toList ++ ("/a b ".toList ++ '\n' :: "k: 1\n".toList))
        = some (expand_tilde "/home/user".toList "/a b ".toList) :=
  ⟨by decide, by decide,
    (c5_sync_root_extraction "/home/user".toList "/a b ".toList
      "k: 1\n".toList (by decide) (by decide)).1⟩

/-- Claim C6: every failed or degenerate config fetch — a failed
`GetConfig` call (`reply = none`, covering transport failure and
timeout), a blob without a `sync_root:` key, or a failed Settings-proxy
construction — stores the `<home>/OneDrive` default, and the handlers
return only a state (no error can reach a caller). -/
theorem c6_config_fallback (home : List Char) (s : ClientState)
    (blob : List Char) (hmiss : find_after sync_root_key blob = none) :
    (on_get_config_ready home s none).sync_root
        = some (default_sync_root home)
    ∧ (on_get_config_ready home s (some blob)).sync_root
        = some (default_sync_root home)
    ∧ (on_settings_proxy_ready home s false).sync_root
        = some (default_sync_root home) := by
  refine ⟨rfl, ?_, rfl⟩
  have hx : extract_sync_root home blob = none := by
    unfold extract_sync_root
    rw [hmiss]
    rfl
  simp [on_get_config_ready, hx]

/-- Witness for C6 at home `"/home/user"` and the keyless blob
`"version: 2\n"`. -/
theorem c6_witness :
    find_after sync_root_key "version: 2\n".toList = none
    ∧ (on_get_config_ready "/home/user".toList lnxdrive_dbus_client_init
        (some "version: 2\n".toList)).sync_root
        = some (default_sync_root "/home/user".toList) :=
  ⟨by decide,
    (c6_config_fallback "/home/user".toList lnxdrive_dbus_client_init
      "version: 2\n".toList (by decide)).2.1⟩

/-- Claim C7 counterexample: immediately after initialisation — before
any config fetch completes — `lnxdrive_dbus_client_get_sync_root`
returns NULL (`none`), not the claimed `<home>/OneDrive` default
(`sync_root` is initialised to NULL in `lnxdrive_dbus_client_init`). -/
theorem c7_counterexample :
    lnxdrive_dbus_client_get_sync_root lnxdrive_dbus_client_init = none
    ∧ lnxdrive_dbus_client_get_sync_root lnxdrive_dbus_client_init
        ≠ some (default_sync_root "/home/user".toList) := by
  refine ⟨rfl, by decide⟩

/-- Claim C7 (amended): `getSyncRoot` returns NULL for as long as no
sync-root fetch attempt has completed (no Settings-proxy failure and no
`GetConfig` completion in the event trace); as soon as the trace
contains a fetch completion, it returns `<home>/OneDrive` unless a
daemon-reported value was successfully extracted, in which case that
extracted value — never an empty or foreign value, and never the
default before the first fetch completes. -/
theorem c7_sync_root_lifecycle (home : List Char) (evs : List ClientEvent) :
    ((∀ e ∈ evs, is_fetch_completion e = false) →
      lnxdrive_dbus_client_get_sync_root (run_client home evs) = none)
    ∧ ((∃ e ∈ evs, is_fetch_completion e = true) →
      lnxdrive_dbus_client_get_sync_root (run_client home evs)
          = some (default_sync_root home)
      ∨ ∃ blob v, extract_sync_root home blob = some v ∧
          lnxdrive_dbus_client_get_sync_root (run_client home evs)
            = some v) := by
  have hstep_none : ∀ (s : ClientState) (e : ClientEvent),
      is_fetch_completion e = false →
      (step home s e).sync_root = s.sync_root := by
    intro s e he
    cases e with
    | proxyReady ok owner => exact on_proxy_ready_sync_root s ok owner
    | nameOwnerChanged owner => exact on_name_owner_changed_sync_root s owner
    | fileStatusChanged p st => rfl
    | settingsProxyReady ok =>
        cases ok with
        | true => rfl
        | false => simp [is_fetch_completion] at he
    | getConfigReady reply => simp [is_fetch_completion] at he
    | batchReply paths reply => exact batch_sync_root s paths reply
  have hest : ∀ (s : ClientState) (e : ClientEvent),
      is_fetch_completion e = true →
      ((step home s e).sync_root = some (default_sync_root home)
        ∨ ∃ blob v, extract_sync_root home blob = some v ∧
            (step home s e).sync_root = some v) := by
    intro s e he
    cases e with
    | proxyReady ok owner => simp [is_fetch_completion] at he
    | nameOwnerChanged owner => simp [is_fetch_completion] at he
    | fileStatusChanged p st => simp [is_fetch_completion] at he
    | batchReply paths reply => simp [is_fetch_completion] at he
    | settingsProxyReady ok =>
        cases ok with
        | true => simp [is_fetch_completion] at he
        | false => exact Or.inl rfl
    | getConfigReady reply =>
        cases reply with
        | none => exact Or.inl rfl
        | some blob =>
            simp only [step]
            cases hx : extract_sync_root home blob with
            | none =>
                refine Or.inl ?_
                simp [on_get_config_ready, hx]
            | some v =>
                refine Or.inr ⟨blob, v, hx, ?_⟩
                simp [on_get_config_ready, hx]
  have hP_step : ∀ (s : ClientState) (e : ClientEvent),
      (s.sync_root = some (default_sync_root home)
        ∨ ∃ blob v, extract_sync_root home blob = some v ∧
            s.sync_root = some v) →
      ((step home s e).sync_root = some (default_sync_root home)
        ∨ ∃ blob v, extract_sync_root home blob = some v ∧
            (step home s e).sync_root = some v) := by
    intro s e hs
    cases hc : is_fetch_completion e with
    | true => exact hest s e hc
    | false =>
        rw [hstep_none s e hc]
        exact hs
  have hfoldP : ∀ (l : List ClientEvent) (s : ClientState),
      (s.sync_root = some (default_sync_root home)
        ∨ ∃ blob v, extract_sync_root home blob = some v ∧
            s.sync_root = some v) →
      ((l.foldl (step home) s).sync_root = some (default_sync_root home)
        ∨ ∃ blob v, extract_sync_root home blob = some v ∧
            (l.foldl (step home) s).sync_root = some v) := by
    intro l
    induction l with
    | nil => intro s hs; exact hs
    | cons e es ih => intro s hs; exact ih _ (hP_step s e hs)
  constructor
  · intro hall
    have hfold_none : ∀ (l : List ClientEvent) (s : ClientState),
        (∀ e ∈ l, is_fetch_completion e = false) → s.sync_root = none →
        (l.foldl (step home) s).sync_root = none := by
      intro l
      induction l with
      | nil => intro s _ hs; exact hs
      | cons e es ih =>
          intro s hl hs
          have he : is_fetch_completion e = false :=
            hl e (List.mem_cons_self e es)
          have hes : ∀ x ∈ es, is_fetch_completion x = false :=
            fun x hx => hl x (List.mem_cons_of_mem e hx)
          refine ih _ hes ?_
          rw [hstep_none s e he]
          exact hs
    exact hfold_none evs lnxdrive_dbus_client_init hall rfl
  · intro hex
    have main : ∀ (l : List ClientEvent) (s : ClientState),
        (∃ e ∈ l, is_fetch_completion e = true) →
        ((l.foldl (step home) s).sync_root = some (default_sync_root home)
          ∨ ∃ blob v, extract_sync_root home blob = some v ∧
              (l.foldl (step home) s).sync_root = some v) := by
      intro l
      induction l with
      | nil =>
          intro s h
          rcases h with ⟨e, he, _⟩
          exact absurd he (List.not_mem_nil e)
      | cons e es ih =>
          intro s h
          rcases h with ⟨e', he', hc⟩
          rcases List.mem_cons.1 he' with heq | hmem
          · subst heq
            exact hfoldP es _ (hest s e' hc)
          · exact ih _ ⟨e', hmem, hc⟩
    exact main evs lnxdrive_dbus_client_init hex

/-- Witness for C7 (amended): a trace with only a proxy-ready event has
no fetch completion and leaves `getSyncRoot` at NULL; a trace whose one
event is a failed `GetConfig` completion yields the default (or an
extracted value). -/
theorem c7_witness :
    (∀ e ∈ [ClientEvent.proxyReady true true],
      is_fetch_completion e = false)
    ∧ lnxdrive_dbus_client_get_sync_root
        (run_client "/home/user".toList [ClientEvent.proxyReady true true])
        = none
    ∧ (∃ e ∈ [ClientEvent.getConfigReady none],
        is_fetch_completion e = true)
    ∧ (lnxdrive_dbus_client_get_sync_root
        (run_client "/home/user".toList [ClientEvent.getConfigReady none])
          = some (default_sync_root "/home/user".toList)
      ∨ ∃ blob v,
          extract_sync_root "/home/user".toList blob = some v ∧
          lnxdrive_dbus_client_get_sync_root
            (run_client "/home/user".toList [ClientEvent.getConfigReady none])
            = some v) :=
  ⟨fun e he => by
      rcases List.mem_cons.1 he with heq | hmem
      · rw [heq]; rfl
      · exact absurd hmem (List.not_mem_nil e),
    (c7_sync_root_lifecycle "/home/user".toList
      [ClientEvent.proxyReady true true]).1
      (fun e he => by
        rcases List.mem_cons.1 he with heq | hmem
        · rw [heq]; rfl
        · exact absurd hmem (List.not_mem_nil e)),
    ⟨ClientEvent.getConfigReady none, List.mem_cons_self _ _, rfl⟩,
    (c7_sync_root_lifecycle "/home/user".toList
      [ClientEvent.getConfigReady none]).2
      ⟨ClientEvent.getConfigReady none, List.mem_cons_self _ _, rfl⟩⟩

/-- Claim C8: while connected (daemon running, proxy present, non-empty
path array), every `(path, status)` pair of a successful batch reply is
present in the returned table and written to the status cache, so a
subsequent `getFileStatus` for the path returns that status. -/
theorem c8_batch_roundtrip (s : ClientState) (paths : List String)
    (entries : List (String × String)) (p st : String)
    (h1 : s.daemon_running = true) (h2 : s.files_proxy ≠ none)
    (h3 : paths ≠ []) (h4 : (entries.map Prod.fst).Nodup)
    (h5 : (p, st) ∈ entries) :
    hlookup (lnxdrive_dbus_client_get_batch_file_status s paths
        (some entries)).result p = some st
    ∧ lnxdrive_dbus_client_get_file_status
        (lnxdrive_dbus_client_get_batch_file_status s paths
          (some entries)).state p = st := by
  have hcond : ¬(s.daemon_running = false ∨ s.files_proxy = none
      ∨ paths = []) := by
    push_neg
    exact ⟨by simp [h1], h2, h3⟩
  unfold lnxdrive_dbus_client_get_batch_file_status
  rw [if_neg hcond]
  constructor
  · exact apply_batch_lookup_mem p st entries [] h4 h5
  · unfold lnxdrive_dbus_client_get_file_status
    simp [h1, apply_batch_lookup_mem p st entries s.status_cache h4 h5]

/-- Witness for C8: a connected client batch-queries `"/p"`, the reply
maps it to `"synced"`, and the subsequent lookup returns `"synced"`. -/
theorem c8_witness :
    (on_proxy_ready lnxdrive_dbus_client_init true true).daemon_running
        = true
    ∧ (on_proxy_ready lnxdrive_dbus_client_init true true).files_proxy
        ≠ none
    ∧ (["/p"] : List String) ≠ []
    ∧ ((([("/p", "synced")] : List (String × String)).map Prod.fst).Nodup)
    ∧ (("/p", "synced") ∈ ([("/p", "synced")] : List (String × String)))
    ∧ lnxdrive_dbus_client_get_file_status
        (lnxdrive_dbus_client_get_batch_file_status
          (on_proxy_ready lnxdrive_dbus_client_init true true)
          ["/p"] (some [("/p", "synced")])).state "/p" = "synced" :=
  ⟨rfl, by decide, by decide, by decide, by decide,
    (c8_batch_roundtrip (on_proxy_ready lnxdrive_dbus_client_init true true)
      ["/p"] [("/p", "synced")] "/p" "synced" rfl (by decide) (by decide)
      (by decide) (by decide)).2⟩

/-- Claim C9: `handle_action_error` classifies the remote error name
into exactly one of InsufficientDiskSpace, FileInUse and InvalidPath —
each with its specific user-facing notification — and any other failure
takes the unclassified branch, whose notification preserves the
original error message; a remote FileInUse error is reported as
FileInUse, never as the generic case. -/
theorem c9_error_classification (name : Option String) (m a : String)
    (hg1 : name ≠ some LNXDRIVE_DBUS_ERROR_INSUFFICIENT_DISK_SPACE)
    (hg2 : name ≠ some LNXDRIVE_DBUS_ERROR_FILE_IN_USE)
    (hg3 : name ≠ some LNXDRIVE_DBUS_ERROR_INVALID_PATH) :
    classify_remote_error (some LNXDRIVE_DBUS_ERROR_FILE_IN_USE) m
        = RemoteErrorClass.fileInUse
    ∧ handle_action_error (some LNXDRIVE_DBUS_ERROR_FILE_IN_USE) m a
        = { title := "File In Use"
            body := "The file is currently in use by another process. Close the file and try again." }
    ∧ classify_remote_error
        (some LNXDRIVE_DBUS_ERROR_INSUFFICIENT_DISK_SPACE) m
        = RemoteErrorClass.insufficientDiskSpace
    ∧ handle_action_error
        (some LNXDRIVE_DBUS_ERROR_INSUFFICIENT_DISK_SPACE) m a
        = { title := "Not Enough Disk Space"
            body := "There is not enough disk space to complete this operation. Free up some space and try again." }
    ∧ classify_remote_error (some LNXDRIVE_DBUS_ERROR_INVALID_PATH) m
        = RemoteErrorClass.invalidPath
    ∧ handle_action_error (some LNXDRIVE_DBUS_ERROR_INVALID_PATH) m a
        = { title := "File Not in Sync Folder"
            body := "This file is not inside the LNXDrive sync folder." }
    ∧ classify_remote_error name m = RemoteErrorClass.unclassified m
    ∧ handle_action_error name m a
        = { title := "LNXDrive: Operation Failed"
            body := "The \"" ++ a ++ "\" operation failed: " ++ m } := by
  have d1 : some LNXDRIVE_DBUS_ERROR_FILE_IN_USE
      ≠ some LNXDRIVE_DBUS_ERROR_INSUFFICIENT_DISK_SPACE := by decide
  have d2 : some LNXDRIVE_DBUS_ERROR_INVALID_PATH
      ≠ some LNXDRIVE_DBUS_ERROR_INSUFFICIENT_DISK_SPACE := by decide
  have d3 : some LNXDRIVE_DBUS_ERROR_INVALID_PATH
      ≠ some LNXDRIVE_DBUS_ERROR_FILE_IN_USE := by decide
  refine ⟨?_, ?_, ?_, ?_, ?_, ?_, ?_, ?_⟩ <;>
    simp [classify_remote_error, handle_action_error, d1, d2, d3,
      hg1, hg2, hg3]

/-- Witness for C9 with the unrecognised remote error name
`"org.example.SomethingElse"`. -/
theorem c9_witness :
    (some "org.example.SomethingElse"
        ≠ some LNXDRIVE_DBUS_ERROR_INSUFFICIENT_DISK_SPACE)
    ∧ (some "org.example.SomethingElse"
        ≠ some LNXDRIVE_DBUS_ERROR_FILE_IN_USE)
    ∧ (some "org.example.SomethingElse"
        ≠ some LNXDRIVE_DBUS_ERROR_INVALID_PATH)
    ∧ classify_remote_error (some "org.example.SomethingElse") "boom"
        = RemoteErrorClass.unclassified "boom"
    ∧ classify_remote_error (some LNXDRIVE_DBUS_ERROR_FILE_IN_USE) "boom"
        = RemoteErrorClass.fileInUse :=
  ⟨by decide, by decide, by decide,
    (c9_error_classification (some "org.example.SomethingElse") "boom"
      "Sync Now" (by decide) (by decide) (by decide)).2.2.2.2.2.2.1,
    (c9_error_classification (some "org.example.SomethingElse") "boom"
      "Sync Now" (by decide) (by decide) (by decide)).1⟩

/-- Claim C10: whenever the daemon is not running, the files proxy is
absent, or the requested path array is empty,
`lnxdrive_dbus_client_get_batch_file_status` returns the (non-null)
empty table, leaves the client state (and so the status cache)
unchanged, and makes no remote call — no error, no blocking. -/
theorem c10_batch_degenerate (s : ClientState) (paths : List String)
    (reply : Option (List (String × String)))
    (h : s.daemon_running = false ∨ s.files_proxy = none ∨ paths = []) :
    lnxdrive_dbus_client_get_batch_file_status s paths reply
      = { result := [], state := s, called_remote := false } := by
  unfold lnxdrive_dbus_client_get_batch_file_status
  rw [if_pos h]

/-- Witness for C10 at the freshly initialised client (daemon not
running and no proxy) with a non-empty path array. -/
theorem c10_witness :
    (lnxdrive_dbus_client_init.daemon_running = false
      ∨ lnxdrive_dbus_client_init.files_proxy = none
      ∨ (["/q"] : List String) = [])
    ∧ lnxdrive_dbus_client_get_batch_file_status lnxdrive_dbus_client_init
        ["/q"] none
        = { result := [], state := lnxdrive_dbus_client_init,
            called_remote := false } :=
  ⟨Or.inl rfl,
    c10_batch_degenerate lnxdrive_dbus_client_init ["/q"] none
      (Or.inl rfl)⟩
